import Mathlib

/-!
Shallow embedding of the endpoint-resolution and fallback-aggregation core of
the server (`resolveEndpoint` / `probeUrl` and the `/api/games` handler).

The resolver is embedded as a pure function over an explicit environment
(`process.env`), an explicit network oracle (one probe outcome per URL and
method) and an explicit memoization map (the module-level `resolved` object);
besides the result it reports the updated map and the list of URLs it probed,
so that "issues no network probe" is a statement about the returned probe list.
-/

/-- HTTP method used by a reachability probe. -/
inductive ProbeMethod where
  | head
  | get
deriving DecidableEq

/-- Outcome of one probe request: a response carrying a status code, or a
rejection (timeout, abort, DNS failure — anything that makes fetch throw). -/
inductive ProbeOutcome where
  | resp (status : Nat)
  | netFail
deriving DecidableEq

/-- The network as the prober sees it: an outcome per URL and method. -/
def Network : Type := String → ProbeMethod → ProbeOutcome

/-- `probeUrl` (source lines 68-82): try HEAD; a received response whose status
is truthy (nonzero) and below 500 counts as reachable; only when HEAD rejects
is a single GET retry made; every failure collapses to `false`. -/
def probeUrl (net : Network) (url : String) : Bool :=
  match net url ProbeMethod.head with
  | ProbeOutcome.resp s => decide (s ≠ 0) && decide (s < 500)
  | ProbeOutcome.netFail =>
    match net url ProbeMethod.get with
    | ProbeOutcome.resp s => decide (s ≠ 0) && decide (s < 500)
    | ProbeOutcome.netFail => false

/-- The `ENDPOINT_CANDIDATES` allowlist (source lines 40-56), with the
`ENDPOINT_CANDIDATES[name] || []` lookup of line 96 folded in. -/
def ENDPOINT_CANDIDATES (name : String) : List String :=
  if name = "authorize" then
    ["https://authorize.roblox.com/oauth/authorize",
     "https://www.roblox.com/oauth/authorize",
     "https://apis.roblox.com/oauth/v1/authorize"]
  else if name = "token" then
    ["https://authorize.roblox.com/oauth/token",
     "https://www.roblox.com/oauth/token",
     "https://apis.roblox.com/oauth/v1/token"]
  else if name = "userinfo" then
    ["https://authorize.roblox.com/oauth/v1/userinfo",
     "https://www.roblox.com/oauth/userinfo",
     "https://apis.roblox.com/oauth/v1/userinfo"]
  else []

/-- The environment-override key for an operation (source lines 86-88); any
name other than authorize/token falls to the userinfo key, as in the source. -/
def envKeyOf (name : String) : String :=
  if name = "authorize" then "OAUTH_AUTHORIZE_URL"
  else if name = "token" then "OAUTH_TOKEN_URL"
  else "OAUTH_USERINFO_URL"

/-- JS truthiness of a possibly-absent string: `undefined` and `""` are falsy. -/
def strTruthy : Option String → Bool
  | none => false
  | some s => decide (s ≠ "")

/-- Writing one key of the `resolved` object. -/
def updateMap (m : String → Option String) (k v : String) : String → Option String :=
  fun x => if x = k then some v else m x

/-- The probing loop of `resolveEndpoint` (source lines 97-110): first
candidate whose probe succeeds, if any, together with the candidates actually
probed, in order. -/
def probeLoop (net : Network) : List String → Option String × List String
  | [] => (none, [])
  | c :: rest =>
    if probeUrl net c then (some c, [c])
    else
      let r := probeLoop net rest
      (r.1, c :: r.2)

/-- What one `resolveEndpoint` call produces: its return value or thrown
error, the memoization map afterwards, and the URLs it probed. -/
structure ResolveResult where
  result : Except String String
  resolved : String → Option String
  probes : List String

/-- `resolveEndpoint` (source lines 84-120): environment override first
(cached, no probing), then the memoized value, then the probing loop over the
candidate list, then the first-candidate fallback, and an error only when the
candidate list is empty. -/
def resolveEndpoint (env : String → Option String) (net : Network)
    (resolved : String → Option String) (name : String) : ResolveResult :=
  let envKey := envKeyOf name
  if strTruthy (env envKey) then
    let v := (env envKey).getD ""
    { result := Except.ok v, resolved := updateMap resolved name v, probes := [] }
  else if strTruthy (resolved name) then
    { result := Except.ok ((resolved name).getD ""), resolved := resolved, probes := [] }
  else
    let list := ENDPOINT_CANDIDATES name
    match probeLoop net list with
    | (some c, tried) =>
      { result := Except.ok c, resolved := updateMap resolved name c, probes := tried }
    | (none, tried) =>
      match list with
      | c0 :: _ =>
        { result := Except.ok c0, resolved := updateMap resolved name c0, probes := tried }
      | [] =>
        { result := Except.error ("No candidates configured for endpoint " ++ name),
          resolved := resolved, probes := tried }

/-- Did the call throw? -/
def isErr : Except String String → Bool
  | Except.error _ => true
  | Except.ok _ => false

/-- Memoization-map states reachable from a given state by any sequence of
`resolveEndpoint` calls (any operation names, any network behaviour) under a
fixed environment — the per-process evolution of the `resolved` object. -/
inductive Evolves (env : String → Option String) :
    (String → Option String) → (String → Option String) → Prop where
  | refl (c : String → Option String) : Evolves env c c
  | step (c c' : String → Option String) (net : Network) (n : String) :
      Evolves env c c' → Evolves env c (resolveEndpoint env net c' n).resolved

/-!
The games aggregator. Upstream JSON scalars are embedded as `JVal` with JS
truthiness; `null` also stands for `undefined` (the two are indistinguishable
to the truthiness tests and `||` chains the handler uses). A fetch that
throws — network failure, non-2xx status (fetchJson raises on `!res.ok`) or a
parse failure — is `Fetch.thrown`; an `ok none` payload is a response whose
JSON lacks the expected array (the `Array.isArray` guards).
-/

/-- A JavaScript scalar as the normalization code distinguishes them. -/
inductive JVal where
  | null
  | num (n : Int)
  | str (s : String)
deriving DecidableEq

/-- JS truthiness: null/undefined, `0` and `""` are falsy. -/
def JVal.truthy : JVal → Bool
  | JVal.null => false
  | JVal.num n => decide (n ≠ 0)
  | JVal.str s => decide (s ≠ "")

/-- JS `a || b`. -/
def jor (a b : JVal) : JVal := if a.truthy then a else b

/-- The `creator` sub-object of an upstream game payload. -/
structure UpstreamCreator where
  name : JVal
deriving DecidableEq

/-- One element of an upstream games array, with every field the three
normalization arrows read; an absent field is `JVal.null` (resp. `none` for
the `creator` object). -/
structure UpstreamGame where
  id : JVal
  universeId : JVal
  placeId : JVal
  assetId : JVal
  name : JVal
  title : JVal
  creator : Option UpstreamCreator
  creatorName : JVal
  iconUrl : JVal
  thumbnailUrl : JVal
  playing : JVal
  currentPlayers : JVal
  visits : JVal
deriving DecidableEq

/-- An upstream game payload with every field absent. -/
def emptyGame : UpstreamGame :=
  { id := JVal.null, universeId := JVal.null, placeId := JVal.null,
    assetId := JVal.null, name := JVal.null, title := JVal.null,
    creator := none, creatorName := JVal.null, iconUrl := JVal.null,
    thumbnailUrl := JVal.null, playing := JVal.null,
    currentPlayers := JVal.null, visits := JVal.null }

/-- JS `g.creator && g.creator.name` (an object is truthy, so a present
creator yields its name field; an absent one yields a falsy value). -/
def creatorField (g : UpstreamGame) : JVal :=
  match g.creator with
  | some c => c.name
  | none => JVal.null

/-- The canonical game record the handler returns. -/
structure GameRecord where
  id : JVal
  name : JVal
  creator : JVal
  thumbnail : JVal
  playing : JVal
  visits : JVal
deriving DecidableEq

/-- Normalization arrow of strategy 1, games/list (source lines 286-293). -/
def mapGame1 (g : UpstreamGame) : GameRecord :=
  { id := jor (jor (jor g.id g.universeId) g.placeId) g.assetId
    name := jor (jor g.name g.title) (JVal.str "")
    creator := jor (jor (creatorField g) g.creatorName) (JVal.str "Unknown")
    thumbnail := jor (jor g.iconUrl g.thumbnailUrl) JVal.null
    playing := jor (jor g.playing g.currentPlayers) JVal.null
    visits := jor g.visits JVal.null }

/-- Normalization arrow of strategy 2, sorts listing (source lines 308-315). -/
def mapGame2 (g : UpstreamGame) : GameRecord :=
  { id := jor g.id g.universeId
    name := g.name
    creator := jor (creatorField g) (JVal.str "Unknown")
    thumbnail := jor g.iconUrl JVal.null
    playing := jor g.playing JVal.null
    visits := jor g.visits JVal.null }

/-- Normalization arrow of strategy 3, by-universe listing (lines 334-341). -/
def mapGame3 (g : UpstreamGame) : GameRecord :=
  { id := g.id
    name := g.name
    creator := jor (creatorField g) (JVal.str "Unknown")
    thumbnail := jor g.iconUrl JVal.null
    playing := jor g.playing JVal.null
    visits := jor g.visits JVal.null }

/-- Outcome of one `fetchJson` call: a parsed payload, or a throw. -/
inductive Fetch (α : Type) where
  | ok (v : α)
  | thrown
deriving DecidableEq

/-- One element of the multiget-place-details array. -/
structure PlaceDetail where
  universeId : JVal
deriving DecidableEq

/-- The upstream responses one `/api/games` request can observe, one per
endpoint it may call (each endpoint is called at most once per request). A
`none` list element of `placeDetails` is a JSON `null` entry, which the
`place &&` guard rejects. -/
structure Upstream where
  list : Fetch (Option (List UpstreamGame))
  sorts : Fetch (Option String)
  sortedList : Fetch (Option (List UpstreamGame))
  placeDetails : Fetch (Option (List (Option PlaceDetail)))
  byUniverse : Fetch (Option (List UpstreamGame))

/-- The upstream endpoints, for counting which calls a request issues. -/
inductive UpCall where
  | list
  | sorts
  | sortedList
  | placeDetails
  | byUniverse
deriving DecidableEq

/-- Strategy 1 (source lines 281-298): the games/list search; its fetch is
always issued, failures are swallowed, and only a nonempty `data` array is
kept. Returns the accumulated list and the calls issued. -/
def stage1 (up : Upstream) : List GameRecord × List UpCall :=
  match up.list with
  | Fetch.thrown => ([], [UpCall.list])
  | Fetch.ok none => ([], [UpCall.list])
  | Fetch.ok (some l) =>
    if l.isEmpty then ([], [UpCall.list]) else (l.map mapGame1, [UpCall.list])

/-- Strategy 2 (source lines 300-322): only when the list is still empty,
fetch the sorts, and with a truthy token fetch the sorted listing. -/
def stage2 (up : Upstream) (games : List GameRecord) :
    List GameRecord × List UpCall :=
  if games.isEmpty then
    match up.sorts with
    | Fetch.thrown => (games, [UpCall.sorts])
    | Fetch.ok none => (games, [UpCall.sorts])
    | Fetch.ok (some t) =>
      if t = "" then (games, [UpCall.sorts])
      else
        match up.sortedList with
        | Fetch.thrown => (games, [UpCall.sorts, UpCall.sortedList])
        | Fetch.ok none => (games, [UpCall.sorts, UpCall.sortedList])
        | Fetch.ok (some l) =>
          if l.isEmpty then (games, [UpCall.sorts, UpCall.sortedList])
          else (l.map mapGame2, [UpCall.sorts, UpCall.sortedList])
  else (games, [])

/-- JS `/^\d+$/.test(s)`: one or more ASCII digits and nothing else (written
over the character list so terms evaluate by kernel reduction). -/
def digitOnly (s : String) : Bool := !s.data.isEmpty && s.data.all Char.isDigit

/-- JS `s.trim()` (written over the character list so terms evaluate by
kernel reduction): strip leading and trailing whitespace. -/
def jsTrim (s : String) : String :=
  { data := ((s.data.dropWhile Char.isWhitespace).reverse.dropWhile
      Char.isWhitespace).reverse }

/-- Strategy 3 (source lines 324-349): only when still empty and the query is
truthy and digit-only, fetch place details, and when the first element has a
truthy universeId fetch the by-universe listing. -/
def stage3 (up : Upstream) (q : String) (games : List GameRecord) :
    List GameRecord × List UpCall :=
  if games.isEmpty && (!q.isEmpty && digitOnly q) then
    match up.placeDetails with
    | Fetch.thrown => (games, [UpCall.placeDetails])
    | Fetch.ok none => (games, [UpCall.placeDetails])
    | Fetch.ok (some []) => (games, [UpCall.placeDetails])
    | Fetch.ok (some (none :: _)) => (games, [UpCall.placeDetails])
    | Fetch.ok (some (some place :: _)) =>
      if place.universeId.truthy then
        match up.byUniverse with
        | Fetch.thrown => (games, [UpCall.placeDetails, UpCall.byUniverse])
        | Fetch.ok none => (games, [UpCall.placeDetails, UpCall.byUniverse])
        | Fetch.ok (some l) =>
          if l.isEmpty then (games, [UpCall.placeDetails, UpCall.byUniverse])
          else (l.map mapGame3, [UpCall.placeDetails, UpCall.byUniverse])
      else (games, [UpCall.placeDetails])
  else (games, [])

/-- What one `/api/games` request answers: HTTP status, the `data` array, the
`error` field, and (for call counting) the upstream calls issued. -/
structure GamesResult where
  status : Nat
  data : List GameRecord
  error : Option String
  calls : List UpCall

/-- The `/api/games` handler (source lines 274-357): trim the query, run the
three strategies in order, answer 200 with the accumulated list. The outer
catch (status 500 with an `error` field) is unreachable here because every
fallible step of the handler body sits inside an inner try. -/
def apiGames (up : Upstream) (rawQuery : Option String) : GamesResult :=
  let q := jsTrim (rawQuery.getD "")
  let s1 := stage1 up
  let s2 := stage2 up s1.1
  let s3 := stage3 up q s2.1
  { status := 200, data := s3.1, error := none, calls := s1.2 ++ s2.2 ++ s3.2 }

/-- Generic alias-table mapping, following the specification's words: an
ordered list of upstream alias values, first usable (truthy) value wins,
explicit default otherwise. Used to state the normalization claims. -/
def specAliasMap : List JVal → JVal → JVal
  | [], d => d
  | a :: rest, d => if a.truthy then a else specAliasMap rest d

/-- A resolver invariant: the operation has a usable override, or no override
and a usable memoized entry holding `u`. Once it holds, every later
`resolveEndpoint` call for `name` answers `u` without probing. -/
def stableFor (env : String → Option String) (name u : String)
    (c : String → Option String) : Prop :=
  (env (envKeyOf name) = some u ∧ u ≠ "") ∨
  (strTruthy (env (envKeyOf name)) = false ∧ c name = some u ∧ u ≠ "")

/-! Concrete fixtures used to evaluate the theorems on explicit inputs. -/

/-- An empty environment (and an empty memoization map). -/
def envNone : String → Option String := fun _ => none

/-- A network where every request rejects. -/
def netDead : Network := fun _ _ => ProbeOutcome.netFail

/-- An environment carrying only the token-endpoint override. -/
def envTokenOverride : String → Option String :=
  fun k => if k = "OAUTH_TOKEN_URL" then some "https://token.example/override" else none

/-- A network where the first authorize candidate answers 503 and every other
URL answers 404. -/
def netSecondReachable : Network :=
  fun url _ =>
    if url = "https://authorize.roblox.com/oauth/authorize" then ProbeOutcome.resp 503
    else ProbeOutcome.resp 404

/-- A network where HEAD always rejects and GET answers 403. -/
def netGetOnly : Network :=
  fun _ m =>
    match m with
    | ProbeMethod.head => ProbeOutcome.netFail
    | ProbeMethod.get => ProbeOutcome.resp 403

/-- An upstream game with an id and a name. -/
def gameTest : UpstreamGame :=
  { emptyGame with id := JVal.num 1, name := JVal.str "Test" }

/-- Upstream behaviour where every fetch throws. -/
def upAllFail : Upstream :=
  { list := Fetch.thrown, sorts := Fetch.thrown, sortedList := Fetch.thrown,
    placeDetails := Fetch.thrown, byUniverse := Fetch.thrown }

/-- Upstream behaviour where only the games/list search answers, with one
game. -/
def upStrat1 : Upstream := { upAllFail with list := Fetch.ok (some [gameTest]) }

/-- Upstream behaviour where the games/list search answers with one game that
carries no identifier alias at all. -/
def upNoId : Upstream := { upAllFail with list := Fetch.ok (some [emptyGame]) }

/-- Upstream behaviour for the strategy-3 path: list and sorts yield nothing,
the place details resolve to universe 9, which yields one game. -/
def upStrat3 : Upstream :=
  { list := Fetch.ok (some []), sorts := Fetch.ok none,
    sortedList := Fetch.thrown,
    placeDetails := Fetch.ok (some [some { universeId := JVal.num 9 }]),
    byUniverse := Fetch.ok (some [{ emptyGame with id := JVal.num 9, name := JVal.str "Test" }]) }

/-- A payload whose first name alias is present but empty. -/
def gBlankName : UpstreamGame :=
  { emptyGame with name := JVal.str "", title := JVal.str "T" }

/-- A payload carrying a present playing count of 0 next to a truthy
currentPlayers count. -/
def gZeroPlaying : UpstreamGame :=
  { emptyGame with playing := JVal.num 0, currentPlayers := JVal.num 7 }

/-!
Helper lemmas: the four execution paths of `resolveEndpoint`, the probing
loop, and preservation of the memoization invariant.
-/

theorem mem_candidates_ne_empty {n c : String} (h : c ∈ ENDPOINT_CANDIDATES n) :
    c ≠ "" := by
  unfold ENDPOINT_CANDIDATES at h
  split_ifs at h <;> simp only [List.mem_cons, List.not_mem_nil, or_false] at h <;>
    rcases h with rfl | rfl | rfl <;> decide

theorem probeLoop_fst_mem {net : Network} {c : String} :
    ∀ {l : List String}, (probeLoop net l).1 = some c → c ∈ l := by
  intro l
  induction l with
  | nil => intro h; simp [probeLoop] at h
  | cons a rest ih =>
    intro h
    unfold probeLoop at h
    by_cases hp : probeUrl net a = true
    · simp [hp] at h
      subst h
      exact List.mem_cons_self a rest
    · simp [hp] at h
      exact List.mem_cons_of_mem a (ih h)

theorem probeLoop_skip {net : Network} {l1 : List String} (l2 : List String)
    {c : String} (h1 : ∀ x ∈ l1, probeUrl net x = false)
    (h2 : probeUrl net c = true) :
    probeLoop net (l1 ++ c :: l2) = (some c, l1 ++ [c]) := by
  induction l1 with
  | nil => simp [probeLoop, h2]
  | cons a rest ih =>
    have ha : probeUrl net a = false := h1 a (List.mem_cons_self a rest)
    have ih' := ih (fun x hx => h1 x (List.mem_cons_of_mem a hx))
    simp [probeLoop, ha, ih']

theorem probeLoop_none {net : Network} :
    ∀ {l : List String}, (∀ x ∈ l, probeUrl net x = false) →
      probeLoop net l = (none, l) := by
  intro l
  induction l with
  | nil => intro _; rfl
  | cons a rest ih =>
    intro h
    have ha : probeUrl net a = false := h a (List.mem_cons_self a rest)
    have ih' := ih (fun x hx => h x (List.mem_cons_of_mem a hx))
    simp [probeLoop, ha, ih']

theorem resolveEndpoint_override (env : String → Option String) (net : Network)
    (c : String → Option String) (name : String)
    (h : strTruthy (env (envKeyOf name)) = true) :
    resolveEndpoint env net c name =
      { result := Except.ok ((env (envKeyOf name)).getD ""),
        resolved := updateMap c name ((env (envKeyOf name)).getD ""),
        probes := [] } := by
  unfold resolveEndpoint
  simp [h]

theorem resolveEndpoint_cached (env : String → Option String) (net : Network)
    (c : String → Option String) (name : String)
    (h1 : strTruthy (env (envKeyOf name)) = false)
    (h2 : strTruthy (c name) = true) :
    resolveEndpoint env net c name =
      { result := Except.ok ((c name).getD ""), resolved := c, probes := [] } := by
  unfold resolveEndpoint
  simp [h1, h2]

theorem resolveEndpoint_probe_found (env : String → Option String) (net : Network)
    (c : String → Option String) (name cand : String) (tried : List String)
    (h1 : strTruthy (env (envKeyOf name)) = false)
    (h2 : strTruthy (c name) = false)
    (hp : probeLoop net (ENDPOINT_CANDIDATES name) = (some cand, tried)) :
    resolveEndpoint env net c name =
      { result := Except.ok cand, resolved := updateMap c name cand,
        probes := tried } := by
  unfold resolveEndpoint
  simp [h1, h2, hp]

theorem resolveEndpoint_probe_none_cons (env : String → Option String)
    (net : Network) (c : String → Option String) (name : String)
    (tried : List String) (c0 : String) (rest : List String)
    (h1 : strTruthy (env (envKeyOf name)) = false)
    (h2 : strTruthy (c name) = false)
    (hp : probeLoop net (ENDPOINT_CANDIDATES name) = (none, tried))
    (hl : ENDPOINT_CANDIDATES name = c0 :: rest) :
    resolveEndpoint env net c name =
      { result := Except.ok c0, resolved := updateMap c name c0,
        probes := tried } := by
  rw [hl] at hp
  unfold resolveEndpoint
  simp [h1, h2, hp, hl]

theorem resolveEndpoint_no_candidates (env : String → Option String)
    (net : Network) (c : String → Option String) (name : String)
    (h1 : strTruthy (env (envKeyOf name)) = false)
    (h2 : strTruthy (c name) = false)
    (hl : ENDPOINT_CANDIDATES name = []) :
    resolveEndpoint env net c name =
      { result := Except.error ("No candidates configured for endpoint " ++ name),
        resolved := c, probes := [] } := by
  unfold resolveEndpoint
  simp [h1, h2, hl, probeLoop]

theorem updateMap_same (m : String → Option String) (k v : String) :
    updateMap m k v k = some v := by simp [updateMap]

theorem updateMap_other (m : String → Option String) (v : String)
    {k x : String} (h : x ≠ k) : updateMap m k v x = m x := by
  simp [updateMap, h]

theorem resolveEndpoint_resolved_other (env : String → Option String)
    (net : Network) (c : String → Option String) {n m : String} (h : m ≠ n) :
    (resolveEndpoint env net c n).resolved m = c m := by
  by_cases h1 : strTruthy (env (envKeyOf n)) = true
  · rw [resolveEndpoint_override env net c n h1]
    exact updateMap_other c _ h
  · have h1' : strTruthy (env (envKeyOf n)) = false := by simpa using h1
    by_cases h2 : strTruthy (c n) = true
    · rw [resolveEndpoint_cached env net c n h1' h2]
    · have h2' : strTruthy (c n) = false := by simpa using h2
      cases hp : probeLoop net (ENDPOINT_CANDIDATES n) with
      | mk o tried =>
        cases o with
        | some cand =>
          rw [resolveEndpoint_probe_found env net c n cand tried h1' h2' hp]
          exact updateMap_other c _ h
        | none =>
          cases hl : ENDPOINT_CANDIDATES n with
          | nil => rw [resolveEndpoint_no_candidates env net c n h1' h2' hl]
          | cons c0 rest =>
            rw [resolveEndpoint_probe_none_cons env net c n tried c0 rest h1' h2' hp hl]
            exact updateMap_other c _ h

theorem resolve_of_stableFor {env : String → Option String} {name u : String}
    {c : String → Option String} (h : stableFor env name u c) (net : Network) :
    (resolveEndpoint env net c name).result = Except.ok u ∧
    (resolveEndpoint env net c name).probes = [] := by
  rcases h with ⟨he, hu⟩ | ⟨hf, hc, hu⟩
  · have ht : strTruthy (env (envKeyOf name)) = true := by
      rw [he]; simp [strTruthy, hu]
    rw [resolveEndpoint_override env net c name ht]
    simp [he]
  · have ht : strTruthy (c name) = true := by rw [hc]; simp [strTruthy, hu]
    rw [resolveEndpoint_cached env net c name hf ht]
    simp [hc]

theorem stableFor_of_ok {env : String → Option String} {net : Network}
    {c : String → Option String} {name u : String}
    (h : (resolveEndpoint env net c name).result = Except.ok u) :
    stableFor env name u ((resolveEndpoint env net c name).resolved) := by
  by_cases h1 : strTruthy (env (envKeyOf name)) = true
  · rw [resolveEndpoint_override env net c name h1] at h ⊢
    cases he : env (envKeyOf name) with
    | none => rw [he] at h1; simp [strTruthy] at h1
    | some s =>
      have hs : s ≠ "" := by rw [he] at h1; simpa [strTruthy] using h1
      rw [he] at h
      simp only [Option.getD_some, Except.ok.injEq] at h
      subst h
      exact Or.inl ⟨he, hs⟩
  · have h1' : strTruthy (env (envKeyOf name)) = false := by simpa using h1
    by_cases h2 : strTruthy (c name) = true
    · rw [resolveEndpoint_cached env net c name h1' h2] at h ⊢
      cases hc : c name with
      | none => rw [hc] at h2; simp [strTruthy] at h2
      | some s =>
        have hs : s ≠ "" := by rw [hc] at h2; simpa [strTruthy] using h2
        rw [hc] at h
        simp only [Option.getD_some, Except.ok.injEq] at h
        subst h
        exact Or.inr ⟨h1', hc, hs⟩
    · have h2' : strTruthy (c name) = false := by simpa using h2
      cases hp : probeLoop net (ENDPOINT_CANDIDATES name) with
      | mk o tried =>
        cases o with
        | some cand =>
          rw [resolveEndpoint_probe_found env net c name cand tried h1' h2' hp] at h ⊢
          simp only [Except.ok.injEq] at h
          refine Or.inr ⟨h1', ?_, ?_⟩
          · rw [← h]; exact updateMap_same c name cand
          · rw [← h]
            exact mem_candidates_ne_empty (probeLoop_fst_mem (by rw [hp]))
        | none =>
          cases hl : ENDPOINT_CANDIDATES name with
          | nil =>
            rw [resolveEndpoint_no_candidates env net c name h1' h2' hl] at h
            simp at h
          | cons c0 rest =>
            rw [resolveEndpoint_probe_none_cons env net c name tried c0 rest h1' h2' hp hl] at h ⊢
            simp only [Except.ok.injEq] at h
            refine Or.inr ⟨h1', ?_, ?_⟩
            · rw [← h]; exact updateMap_same c name c0
            · rw [← h]
              have hm : c0 ∈ ENDPOINT_CANDIDATES name := by
                rw [hl]; exact List.mem_cons_self c0 rest
              exact mem_candidates_ne_empty hm

theorem stableFor_step {env : String → Option String} {name u : String}
    (net : Network) (n : String) {c : String → Option String}
    (h : stableFor env name u c) :
    stableFor env name u ((resolveEndpoint env net c n).resolved) := by
  rcases h with hL | ⟨hf, hc, hu⟩
  · exact Or.inl hL
  · refine Or.inr ⟨hf, ?_, hu⟩
    by_cases hn : n = name
    · subst hn
      have ht : strTruthy (c n) = true := by rw [hc]; simp [strTruthy, hu]
      rw [resolveEndpoint_cached env net c n hf ht]
      exact hc
    · rw [resolveEndpoint_resolved_other env net c (Ne.symm hn)]
      exact hc

theorem stableFor_evolves {env : String → Option String} {name u : String}
    {c k : String → Option String} (h : stableFor env name u c)
    (he : Evolves env c k) : stableFor env name u k := by
  induction he with
  | refl => exact h
  | step c2 net n prev ih => exact stableFor_step net n ih

theorem evolves_none {env : String → Option String}
    {k : String → Option String} (h : Evolves env (fun _ => none) k)
    (name : String) (hf : strTruthy (env (envKeyOf name)) = false)
    (he : ENDPOINT_CANDIDATES name = []) : k name = none := by
  induction h with
  | refl => rfl
  | step c' net n prev ih =>
    by_cases hn : n = name
    · subst hn
      have h2 : strTruthy (c' n) = false := by rw [ih]; rfl
      rw [resolveEndpoint_no_candidates env net c' n hf h2 he]
      exact ih
    · rw [resolveEndpoint_resolved_other env net c' (Ne.symm hn)]
      exact ih

/-!
Claim theorems for the endpoint resolver.
-/

/-- C1: for an operation with a truthy configured override, resolveEndpoint
returns the override at once, memoizes it and issues no probe; and once any
call for an operation has succeeded, every later call for it — after any
interleaved resolutions of any operations under any network behaviour —
returns the identical memoized URL and issues no probe. -/
theorem resolve_override_and_memoized (env : String → Option String) (name : String) :
    (∀ (net : Network) (c : String → Option String) (v : String),
        env (envKeyOf name) = some v → v ≠ "" →
        (resolveEndpoint env net c name).result = Except.ok v ∧
        (resolveEndpoint env net c name).probes = [] ∧
        (resolveEndpoint env net c name).resolved name = some v) ∧
    (∀ (net : Network) (c : String → Option String) (u : String),
        (resolveEndpoint env net c name).result = Except.ok u →
        ∀ (k : String → Option String),
          Evolves env (resolveEndpoint env net c name).resolved k →
          ∀ (net' : Network),
            (resolveEndpoint env net' k name).result = Except.ok u ∧
            (resolveEndpoint env net' k name).probes = []) := by
  constructor
  · intro net c v hv hne
    have ht : strTruthy (env (envKeyOf name)) = true := by
      rw [hv]; simp [strTruthy, hne]
    rw [resolveEndpoint_override env net c name ht]
    refine ⟨by simp [hv], rfl, ?_⟩
    simp [updateMap, hv]
  · intro net c u hok k hev net'
    exact resolve_of_stableFor (stableFor_evolves (stableFor_of_ok hok) hev) net'

/-- Witness for C1: a concrete token override is returned unprobed, and the
call right after the first success returns the same URL unprobed. -/
theorem resolve_override_and_memoized_witness :
    ((resolveEndpoint envTokenOverride netDead envNone "token").result =
        Except.ok "https://token.example/override" ∧
      (resolveEndpoint envTokenOverride netDead envNone "token").probes = []) ∧
    ((resolveEndpoint envTokenOverride netDead
        (resolveEndpoint envTokenOverride netDead envNone "token").resolved
        "token").result = Except.ok "https://token.example/override" ∧
      (resolveEndpoint envTokenOverride netDead
        (resolveEndpoint envTokenOverride netDead envNone "token").resolved
        "token").probes = []) := by
  have h1 := (resolve_override_and_memoized envTokenOverride "token").1 netDead
    envNone "https://token.example/override" rfl (by decide)
  have h2 := (resolve_override_and_memoized envTokenOverride "token").2 netDead
    envNone "https://token.example/override" h1.1
    ((resolveEndpoint envTokenOverride netDead envNone "token").resolved)
    (Evolves.refl _) netDead
  exact ⟨⟨h1.1, h1.2.1⟩, h2⟩

/-- C2: with no override and no memoized value, the resolver probes the
candidates in declared order, returns and caches the first reachable one and
probes none after it; a candidate is reachable when a response arrives with a
truthy status below 500 (client errors count), and the cheap HEAD probe is
retried once with GET exactly when it rejects. -/
theorem resolve_first_reachable (env : String → Option String) (net : Network)
    (c : String → Option String) (name cand : String) (l1 l2 : List String)
    (hov : strTruthy (env (envKeyOf name)) = false)
    (hc : strTruthy (c name) = false)
    (hl : ENDPOINT_CANDIDATES name = l1 ++ cand :: l2)
    (h1 : ∀ x ∈ l1, probeUrl net x = false)
    (h2 : probeUrl net cand = true) :
    (resolveEndpoint env net c name).result = Except.ok cand ∧
    (resolveEndpoint env net c name).probes = l1 ++ [cand] ∧
    (resolveEndpoint env net c name).resolved name = some cand ∧
    (∀ url s, net url ProbeMethod.head = ProbeOutcome.resp s → s ≠ 0 →
        s < 500 → probeUrl net url = true) ∧
    (∀ url s, net url ProbeMethod.head = ProbeOutcome.netFail →
        net url ProbeMethod.get = ProbeOutcome.resp s → s ≠ 0 → s < 500 →
        probeUrl net url = true) := by
  have hp : probeLoop net (ENDPOINT_CANDIDATES name) = (some cand, l1 ++ [cand]) := by
    rw [hl]; exact probeLoop_skip l2 h1 h2
  rw [resolveEndpoint_probe_found env net c name cand (l1 ++ [cand]) hov hc hp]
  refine ⟨rfl, rfl, updateMap_same c name cand, ?_, ?_⟩
  · intro url s hh hs0 hs5
    unfold probeUrl
    rw [hh]
    simp [hs0, hs5]
  · intro url s hh hg hs0 hs5
    unfold probeUrl
    rw [hh, hg]
    simp [hs0, hs5]

/-- Witness for C2: the first authorize candidate answers 503 (unreachable),
the second 404 (reachable): the second is returned, only the first two are
probed; and a URL whose HEAD rejects but whose GET answers 403 is reachable. -/
theorem resolve_first_reachable_witness :
    (resolveEndpoint envNone netSecondReachable envNone "authorize").result =
      Except.ok "https://www.roblox.com/oauth/authorize" ∧
    (resolveEndpoint envNone netSecondReachable envNone "authorize").probes =
      ["https://authorize.roblox.com/oauth/authorize",
       "https://www.roblox.com/oauth/authorize"] ∧
    probeUrl netGetOnly "https://example.test/" = true := by
  have h := resolve_first_reachable envNone netSecondReachable envNone
    "authorize" "https://www.roblox.com/oauth/authorize"
    ["https://authorize.roblox.com/oauth/authorize"]
    ["https://apis.roblox.com/oauth/v1/authorize"]
    rfl rfl (by decide) (by decide) (by decide)
  have h' := resolve_first_reachable envNone netGetOnly envNone
    "authorize" "https://authorize.roblox.com/oauth/authorize" []
    ["https://www.roblox.com/oauth/authorize",
     "https://apis.roblox.com/oauth/v1/authorize"]
    rfl rfl rfl (by simp) (by decide)
  exact ⟨h.1, h.2.1, h'.2.2.2.2 "https://example.test/" 403 rfl rfl
    (by decide) (by decide)⟩

/-- C3: with no override, no memoized value and a nonempty candidate list none
of whose probes succeed, the resolver returns and caches the first candidate
instead of raising an error. -/
theorem resolve_fallback_first (env : String → Option String) (net : Network)
    (c : String → Option String) (name c0 : String) (rest : List String)
    (hov : strTruthy (env (envKeyOf name)) = false)
    (hc : strTruthy (c name) = false)
    (hl : ENDPOINT_CANDIDATES name = c0 :: rest)
    (hall : ∀ x ∈ ENDPOINT_CANDIDATES name, probeUrl net x = false) :
    (resolveEndpoint env net c name).result = Except.ok c0 ∧
    (resolveEndpoint env net c name).resolved name = some c0 := by
  have hp : probeLoop net (ENDPOINT_CANDIDATES name) =
      (none, ENDPOINT_CANDIDATES name) := probeLoop_none hall
  rw [resolveEndpoint_probe_none_cons env net c name (ENDPOINT_CANDIDATES name)
    c0 rest hov hc hp hl]
  exact ⟨rfl, updateMap_same c name c0⟩

/-- Witness for C3: with a dead network, resolving userinfo yields its first
candidate. -/
theorem resolve_fallback_first_witness :
    (resolveEndpoint envNone netDead envNone "userinfo").result =
      Except.ok "https://authorize.roblox.com/oauth/v1/userinfo" := by
  have h := resolve_fallback_first envNone netDead envNone "userinfo"
    "https://authorize.roblox.com/oauth/v1/userinfo"
    ["https://www.roblox.com/oauth/userinfo",
     "https://apis.roblox.com/oauth/v1/userinfo"]
    rfl rfl rfl (by decide)
  exact h.1

/-- C4: a resolve call throws exactly when the operation has no truthy
override and an empty candidate list — for every network behaviour, so an
individual probe failure never propagates to the caller; the quantification
over reachable memoization states says a process run cannot enter a state
that changes this. -/
theorem resolve_error_iff (env : String → Option String)
    (k : String → Option String) (name : String)
    (hk : Evolves env (fun _ => none) k) (net : Network) :
    isErr (resolveEndpoint env net k name).result = true ↔
      (strTruthy (env (envKeyOf name)) = false ∧
        ENDPOINT_CANDIDATES name = []) := by
  constructor
  · intro h
    by_cases h1 : strTruthy (env (envKeyOf name)) = true
    · rw [resolveEndpoint_override env net k name h1] at h
      simp [isErr] at h
    · have h1' : strTruthy (env (envKeyOf name)) = false := by simpa using h1
      by_cases h2 : strTruthy (k name) = true
      · rw [resolveEndpoint_cached env net k name h1' h2] at h
        simp [isErr] at h
      · have h2' : strTruthy (k name) = false := by simpa using h2
        cases hp : probeLoop net (ENDPOINT_CANDIDATES name) with
        | mk o tried =>
          cases o with
          | some cand =>
            rw [resolveEndpoint_probe_found env net k name cand tried h1' h2' hp] at h
            simp [isErr] at h
          | none =>
            cases hl : ENDPOINT_CANDIDATES name with
            | nil => exact ⟨h1', rfl⟩
            | cons c0 rest =>
              rw [resolveEndpoint_probe_none_cons env net k name tried c0 rest
                h1' h2' hp hl] at h
              simp [isErr] at h
  · rintro ⟨hf, he⟩
    have h2 : strTruthy (k name) = false := by
      rw [evolves_none hk name hf he]; rfl
    rw [resolveEndpoint_no_candidates env net k name hf h2 he]
    rfl

/-- Witness for C4: an operation outside the allowlist, with no override,
throws from the fresh state. -/
theorem resolve_error_iff_witness :
    isErr (resolveEndpoint envNone netDead envNone "games").result = true :=
  (resolve_error_iff envNone envNone "games" (Evolves.refl envNone)
    netDead).mpr ⟨rfl, rfl⟩

/-!
Helper lemmas for the games aggregator.
-/

theorem stage2_nonempty (up : Upstream) (games : List GameRecord)
    (h : games.isEmpty = false) : stage2 up games = (games, []) := by
  unfold stage2
  simp [h]

theorem stage3_nonempty (up : Upstream) (q : String) (games : List GameRecord)
    (h : games.isEmpty = false) : stage3 up q games = (games, []) := by
  unfold stage3
  simp [h]

theorem apiGames_strat1 (up : Upstream) (raw : Option String)
    (l : List UpstreamGame) (hl : up.list = Fetch.ok (some l)) (hne : l ≠ []) :
    (apiGames up raw).data = l.map mapGame1 ∧
    (apiGames up raw).calls = [UpCall.list] := by
  have hE : l.isEmpty = false := by simpa [List.isEmpty_iff] using hne
  have h1 : stage1 up = (l.map mapGame1, [UpCall.list]) := by
    unfold stage1
    rw [hl]
    simp [hE]
  have hme : (l.map mapGame1).isEmpty = false := by
    simp [List.isEmpty_iff, hne]
  constructor <;>
    simp [apiGames, h1, stage2_nonempty up _ hme, stage3_nonempty up _ _ hme]

theorem placeDetails_not_stage1 (up : Upstream) :
    UpCall.placeDetails ∉ (stage1 up).2 := by
  unfold stage1
  cases up.list with
  | thrown => simp
  | ok o =>
    cases o with
    | none => simp
    | some l => by_cases h : l.isEmpty <;> simp [h]

theorem placeDetails_not_stage2 (up : Upstream) (games : List GameRecord) :
    UpCall.placeDetails ∉ (stage2 up games).2 := by
  unfold stage2
  by_cases hg : games.isEmpty = true
  · cases hs : up.sorts with
    | thrown => simp [hg]
    | ok o =>
      cases o with
      | none => simp [hg]
      | some t =>
        by_cases ht : t = ""
        · simp [hg, ht]
        · cases hsl : up.sortedList with
          | thrown => simp [hg, ht]
          | ok o2 =>
            cases o2 with
            | none => simp [hg, ht]
            | some l => by_cases hl : l.isEmpty <;> simp [hg, ht, hl]
  · have hg' : games.isEmpty = false := by simpa using hg
    simp [hg']

theorem placeDetails_in_stage3 (up : Upstream) (q : String)
    (games : List GameRecord)
    (h : (games.isEmpty && (!q.isEmpty && digitOnly q)) = true) :
    UpCall.placeDetails ∈ (stage3 up q games).2 := by
  unfold stage3
  rw [if_pos h]
  cases up.placeDetails with
  | thrown => simp
  | ok o =>
    cases o with
    | none => simp
    | some dl =>
      cases dl with
      | nil => simp
      | cons hd tl =>
        cases hd with
        | none => simp
        | some place =>
          by_cases hu : place.universeId.truthy = true
          · cases up.byUniverse with
            | thrown => simp [hu]
            | ok o2 =>
              cases o2 with
              | none => simp [hu]
              | some l => by_cases hl : l.isEmpty <;> simp [hu, hl]
          · have hu' : place.universeId.truthy = false := by simpa using hu
            simp [hu']

theorem placeDetails_notin_stage3 (up : Upstream) (q : String)
    (games : List GameRecord)
    (h : (games.isEmpty && (!q.isEmpty && digitOnly q)) = false) :
    UpCall.placeDetails ∉ (stage3 up q games).2 := by
  unfold stage3
  simp [h]

theorem placeDetails_stage3_iff (up : Upstream) (q : String)
    (games : List GameRecord) :
    UpCall.placeDetails ∈ (stage3 up q games).2 ↔
      (games.isEmpty && (!q.isEmpty && digitOnly q)) = true := by
  cases hcond : (games.isEmpty && (!q.isEmpty && digitOnly q)) with
  | true =>
    constructor
    · intro _; rfl
    · intro _; exact placeDetails_in_stage3 up q games hcond
  | false =>
    constructor
    · intro h; exact absurd h (placeDetails_notin_stage3 up q games hcond)
    · intro h; exact absurd h (by decide)

theorem stage2_data_empty (up : Upstream)
    (h2 : ∀ l, up.sortedList = Fetch.ok (some l) → l = []) :
    (stage2 up []).1 = [] := by
  unfold stage2
  cases hs : up.sorts with
  | thrown => rfl
  | ok o =>
    cases o with
    | none => rfl
    | some t =>
      by_cases ht : t = ""
      · simp [ht]
      · cases hsl : up.sortedList with
        | thrown => simp [ht]
        | ok o2 =>
          cases o2 with
          | none => simp [ht]
          | some l =>
            have hl := h2 l hsl
            subst hl
            simp [ht]

theorem stage3_data_empty (up : Upstream) (q : String)
    (h3 : ∀ l, up.byUniverse = Fetch.ok (some l) → l = []) :
    (stage3 up q []).1 = [] := by
  unfold stage3
  by_cases hq : (!q.isEmpty && digitOnly q) = true
  · cases hp : up.placeDetails with
    | thrown => simp [hq]
    | ok o =>
      cases o with
      | none => simp [hq]
      | some dl =>
        cases dl with
        | nil => simp [hq]
        | cons hd tl =>
          cases hd with
          | none => simp [hq]
          | some place =>
            by_cases hu : place.universeId.truthy = true
            · cases hb : up.byUniverse with
              | thrown => simp [hq, hu]
              | ok o2 =>
                cases o2 with
                | none => simp [hq, hu]
                | some l =>
                  have hl := h3 l hb
                  subst hl
                  simp [hq, hu]
            · have hu' : place.universeId.truthy = false := by simpa using hu
              simp [hq, hu']
  · have hq' : (!q.isEmpty && digitOnly q) = false := by simpa using hq
    simp [hq']

theorem jor_one (a d : JVal) : jor a d = specAliasMap [a] d := by
  by_cases ha : a.truthy = true <;> simp [jor, specAliasMap, ha]

theorem jor_two (a b d : JVal) : jor (jor a b) d = specAliasMap [a, b] d := by
  by_cases ha : a.truthy = true
  · simp [jor, specAliasMap, ha]
  · have ha' : a.truthy = false := by simpa using ha
    by_cases hb : b.truthy = true <;> simp [jor, specAliasMap, ha', hb]

theorem jor_three (a b c d : JVal) :
    jor (jor (jor a b) c) d = specAliasMap [a, b, c] d := by
  by_cases ha : a.truthy = true
  · simp [jor, specAliasMap, ha]
  · have ha' : a.truthy = false := by simpa using ha
    have hab : jor a b = b := by simp [jor, ha']
    rw [hab, jor_two]
    simp [specAliasMap, ha']

theorem stage1_data_cases (up : Upstream) :
    (stage1 up).1 = [] ∨
      ∃ l, up.list = Fetch.ok (some l) ∧ (stage1 up).1 = l.map mapGame1 := by
  unfold stage1
  cases hu : up.list with
  | thrown => exact Or.inl rfl
  | ok o =>
    cases o with
    | none => exact Or.inl rfl
    | some l =>
      by_cases hl : l.isEmpty = true
      · simp [hl]
      · have hl' : l.isEmpty = false := by simpa using hl
        refine Or.inr ⟨l, rfl, ?_⟩
        simp [hl']

theorem stage2_data_cases (up : Upstream) (games : List GameRecord) :
    (stage2 up games).1 = games ∨
      ∃ l, up.sortedList = Fetch.ok (some l) ∧
        (stage2 up games).1 = l.map mapGame2 := by
  unfold stage2
  by_cases hg : games.isEmpty = true
  · cases hs : up.sorts with
    | thrown => simp [hg]
    | ok o =>
      cases o with
      | none => simp [hg]
      | some t =>
        by_cases ht : t = ""
        · simp [hg, ht]
        · cases hsl : up.sortedList with
          | thrown => simp [hg, ht]
          | ok o2 =>
            cases o2 with
            | none => simp [hg, ht]
            | some l =>
              by_cases hl : l.isEmpty = true
              · simp [hg, ht, hl]
              · have hl' : l.isEmpty = false := by simpa using hl
                refine Or.inr ⟨l, rfl, ?_⟩
                simp [hg, ht, hl']
  · have hg' : games.isEmpty = false := by simpa using hg
    simp [hg']

theorem stage3_data_cases (up : Upstream) (q : String) (games : List GameRecord) :
    (stage3 up q games).1 = games ∨
      ∃ l, up.byUniverse = Fetch.ok (some l) ∧
        (stage3 up q games).1 = l.map mapGame3 := by
  unfold stage3
  by_cases hc : (games.isEmpty && (!q.isEmpty && digitOnly q)) = true
  · cases hp : up.placeDetails with
    | thrown => simp [hc]
    | ok o =>
      cases o with
      | none => simp [hc]
      | some dl =>
        cases dl with
        | nil => simp [hc]
        | cons hd tl =>
          cases hd with
          | none => simp [hc]
          | some place =>
            by_cases hu : place.universeId.truthy = true
            · cases hb : up.byUniverse with
              | thrown => simp [hc, hu]
              | ok o2 =>
                cases o2 with
                | none => simp [hc, hu]
                | some l =>
                  by_cases hl : l.isEmpty = true
                  · simp [hc, hu, hl]
                  · have hl' : l.isEmpty = false := by simpa using hl
                    refine Or.inr ⟨l, rfl, ?_⟩
                    simp [hc, hu, hl']
            · have hu' : place.universeId.truthy = false := by simpa using hu
              simp [hc, hu']
  · have hc' : (games.isEmpty && (!q.isEmpty && digitOnly q)) = false := by
      simpa using hc
    simp [hc']

/-!
Claim theorems for the games aggregator.
-/

/-- C5: when the dedicated list/search strategy yields a nonempty normalized
list, the handler's output is exactly that normalized list and strategies 2
and 3 issue no calls — the only upstream call of the request is the list
search. -/
theorem aggregator_strat1_final (up : Upstream) (raw : Option String)
    (l : List UpstreamGame) (hl : up.list = Fetch.ok (some l)) (hne : l ≠ []) :
    (apiGames up raw).data = l.map mapGame1 ∧
    (apiGames up raw).calls = [UpCall.list] :=
  apiGames_strat1 up raw l hl hne

/-- Witness for C5: one upstream game, only the list call issued. -/
theorem aggregator_strat1_final_witness :
    (apiGames upStrat1 none).data = [mapGame1 gameTest] ∧
    (apiGames upStrat1 none).calls = [UpCall.list] :=
  aggregator_strat1_final upStrat1 none [gameTest] rfl (by simp)

/-- C6: the id-based fallback strategy is attempted (its place-details call is
issued) exactly when strategies 1 and 2 left the list empty and the handler's
query string is nonempty and strictly digit-only; for any other query it is
skipped entirely. -/
theorem strat3_gate (up : Upstream) (raw : Option String) :
    UpCall.placeDetails ∈ (apiGames up raw).calls ↔
      ((stage2 up (stage1 up).1).1.isEmpty = true ∧
        (jsTrim (raw.getD "")).isEmpty = false ∧
        digitOnly ((jsTrim (raw.getD ""))) = true) := by
  have h1 := placeDetails_not_stage1 up
  have h2 := placeDetails_not_stage2 up (stage1 up).1
  have hcalls : (apiGames up raw).calls =
      (stage1 up).2 ++ (stage2 up (stage1 up).1).2 ++
        (stage3 up ((jsTrim (raw.getD ""))) (stage2 up (stage1 up).1).1).2 := rfl
  rw [hcalls, List.mem_append, List.mem_append]
  rw [placeDetails_stage3_iff]
  simp only [Bool.and_eq_true, Bool.not_eq_true']
  constructor
  · rintro ((ha | hb) | ⟨hg, hq, hd⟩)
    · exact absurd ha h1
    · exact absurd hb h2
    · exact ⟨hg, hq, hd⟩
  · rintro ⟨hg, hq, hd⟩
    exact Or.inr ⟨hg, hq, hd⟩

/-- Witness for C6: empty strategy-1/2 results and the numeric query "123"
make the handler issue the place-details call. -/
theorem strat3_gate_witness :
    UpCall.placeDetails ∈ (apiGames upStrat3 (some "123")).calls :=
  (strat3_gate upStrat3 (some "123")).mpr (by decide)

/-- C7: the handler never throws for upstream failure — every request answers
status 200 with no error field — and when every strategy fails or yields an
empty list it answers the empty record list (success with zero results). -/
theorem query_exhausted_success (up : Upstream) (raw : Option String) :
    ((apiGames up raw).status = 200 ∧ (apiGames up raw).error = none) ∧
    ((∀ l, up.list = Fetch.ok (some l) → l = []) →
      (∀ l, up.sortedList = Fetch.ok (some l) → l = []) →
      (∀ l, up.byUniverse = Fetch.ok (some l) → l = []) →
      (apiGames up raw).data = []) := by
  refine ⟨⟨rfl, rfl⟩, ?_⟩
  intro h1 h2 h3
  have s1 : (stage1 up).1 = [] := by
    unfold stage1
    cases hu : up.list with
    | thrown => rfl
    | ok o =>
      cases o with
      | none => rfl
      | some l =>
        have hl := h1 l hu
        subst hl
        simp
  have hdata : (apiGames up raw).data =
      (stage3 up ((jsTrim (raw.getD ""))) (stage2 up (stage1 up).1).1).1 := rfl
  rw [hdata, s1, stage2_data_empty up h2]
  exact stage3_data_empty up _ h3

/-- Witness for C7: with every fetch throwing, the answer is a 200 with an
empty list and no error. -/
theorem query_exhausted_success_witness :
    (apiGames upAllFail (some "x")).status = 200 ∧
    (apiGames upAllFail (some "x")).error = none ∧
    (apiGames upAllFail (some "x")).data = [] := by
  have h := query_exhausted_success upAllFail (some "x")
  exact ⟨h.1.1, h.1.2, h.2 (fun l hl => by simp [upAllFail] at hl)
    (fun l hl => by simp [upAllFail] at hl)
    (fun l hl => by simp [upAllFail] at hl)⟩

/-- C8 as stated is false: in `gBlankName` the first name alias is present
(the empty string) yet normalization takes the second alias, so "first alias
present wins" does not hold — presence is not what the code tests. -/
theorem normalization_first_present_refuted :
    gBlankName.name = JVal.str "" ∧
    (mapGame1 gBlankName).name = JVal.str "T" ∧
    JVal.str "T" ≠ JVal.str "" := by decide

/-- C8 amended: strategy-1 normalization is the generic alias-table mapping
with the first *truthy* alias winning — a missing or falsy field falls
through — and an explicit default for every field (name "", creator
"Unknown", thumbnail/playing/visits null) except the identifier, which keeps
its last alias's value unconditionally; a payload missing both thumbnail
aliases yields an explicit null, and normalization is total (a total function,
never an exception). -/
theorem normalization_alias_table (g : UpstreamGame) :
    (mapGame1 g).id = specAliasMap [g.id, g.universeId, g.placeId] g.assetId ∧
    (mapGame1 g).name = specAliasMap [g.name, g.title] (JVal.str "") ∧
    (mapGame1 g).creator =
      specAliasMap [creatorField g, g.creatorName] (JVal.str "Unknown") ∧
    (mapGame1 g).thumbnail =
      specAliasMap [g.iconUrl, g.thumbnailUrl] JVal.null ∧
    (mapGame1 g).playing =
      specAliasMap [g.playing, g.currentPlayers] JVal.null ∧
    (mapGame1 g).visits = specAliasMap [g.visits] JVal.null ∧
    (g.iconUrl = JVal.null → g.thumbnailUrl = JVal.null →
      (mapGame1 g).thumbnail = JVal.null) := by
  refine ⟨jor_three _ _ _ _, jor_two _ _ _, jor_two _ _ _, jor_two _ _ _,
    jor_two _ _ _, jor_one _ _, ?_⟩
  intro hi ht
  simp [mapGame1, jor, hi, ht, JVal.truthy]

/-- Witness for C8 (amended): a payload with no thumbnail aliases normalizes
to an explicit null thumbnail. -/
theorem normalization_alias_table_witness :
    (mapGame1 emptyGame).thumbnail = JVal.null :=
  (normalization_alias_table emptyGame).2.2.2.2.2.2 rfl rfl

/-- C9 as stated is false: a mapped record whose payload carries no identifier
alias at all stays in the result set (with an absent identifier); nothing is
dropped. -/
theorem record_without_id_kept_refuted :
    (apiGames upNoId none).data ≠ [] ∧
    (apiGames upNoId none).data =
      [{ id := JVal.null, name := JVal.str "", creator := JVal.str "Unknown",
         thumbnail := JVal.null, playing := JVal.null,
         visits := JVal.null }] := by decide

/-- C9 amended: the aggregator drops nothing in any run — whatever the
upstream behaviour and query, its data is either empty or exactly the full
normalized list of the upstream array the winning strategy mapped
(list/search, sorts-based or id-based), record for record — and in each of
the three mappings a record with no truthy identifier alias keeps an absent
identifier instead of being removed. -/
theorem records_never_dropped (up : Upstream) (raw : Option String) :
    ((apiGames up raw).data = [] ∨
      (∃ l, up.list = Fetch.ok (some l) ∧
        (apiGames up raw).data = l.map mapGame1) ∨
      (∃ l, up.sortedList = Fetch.ok (some l) ∧
        (apiGames up raw).data = l.map mapGame2) ∨
      (∃ l, up.byUniverse = Fetch.ok (some l) ∧
        (apiGames up raw).data = l.map mapGame3)) ∧
    (∀ g : UpstreamGame, g.id = JVal.null → g.universeId = JVal.null →
      g.placeId = JVal.null → g.assetId = JVal.null →
      (mapGame1 g).id = JVal.null) ∧
    (∀ g : UpstreamGame, g.id = JVal.null → g.universeId = JVal.null →
      (mapGame2 g).id = JVal.null) ∧
    (∀ g : UpstreamGame, g.id = JVal.null → (mapGame3 g).id = JVal.null) := by
  constructor
  · have hdata : (apiGames up raw).data =
        (stage3 up (jsTrim (raw.getD "")) (stage2 up (stage1 up).1).1).1 := rfl
    rw [hdata]
    rcases stage3_data_cases up (jsTrim (raw.getD ""))
        (stage2 up (stage1 up).1).1 with h3 | ⟨l, hb, h3⟩
    · rw [h3]
      rcases stage2_data_cases up (stage1 up).1 with h2 | ⟨l, hs, h2⟩
      · rw [h2]
        rcases stage1_data_cases up with h1 | ⟨l, hu, h1⟩
        · exact Or.inl h1
        · exact Or.inr (Or.inl ⟨l, hu, h1⟩)
      · exact Or.inr (Or.inr (Or.inl ⟨l, hs, h2⟩))
    · exact Or.inr (Or.inr (Or.inr ⟨l, hb, h3⟩))
  · refine ⟨?_, ?_, ?_⟩
    · intro g h1 h2 h3 h4
      simp [mapGame1, jor, h1, h2, h3, h4, JVal.truthy]
    · intro g h1 h2
      simp [mapGame2, jor, h1, h2, JVal.truthy]
    · intro g h1
      simp [mapGame3, h1]

/-- Witness for C9 (amended): the alias-free record keeps a null identifier
in each of the three mappings. -/
theorem records_never_dropped_witness :
    (mapGame1 emptyGame).id = JVal.null ∧
    (mapGame2 emptyGame).id = JVal.null ∧
    (mapGame3 emptyGame).id = JVal.null := by
  have h := records_never_dropped upNoId none
  exact ⟨h.2.1 emptyGame rfl rfl rfl rfl, h.2.2.1 emptyGame rfl rfl,
    h.2.2.2 emptyGame rfl⟩

/-- C10 as stated is false: `gZeroPlaying` carries a present playing count of
0, yet its canonical playing field is 7 (taken from the currentPlayers
alias), not null. -/
theorem playing_zero_not_null_refuted :
    gZeroPlaying.playing = JVal.num 0 ∧
    (mapGame1 gZeroPlaying).playing = JVal.num 7 ∧
    JVal.num 7 ≠ JVal.null := by decide

/-- C10 amended: a falsy alias value is skipped like a missing one — the
sorts-based and id-based single-alias mappings send a present playing count
of 0 to null and an empty-string creator name to "Unknown" unconditionally;
in the list/search mapping a payload with playing count 0 gets a null playing
field exactly when the currentPlayers alias is also falsy, and with an
empty-string creator name the creator field is the creatorName alias when
that alias is truthy and "Unknown" otherwise. -/
theorem falsy_fields_coerced (g : UpstreamGame) :
    (g.playing = JVal.num 0 → (mapGame2 g).playing = JVal.null) ∧
    (g.playing = JVal.num 0 → (mapGame3 g).playing = JVal.null) ∧
    (creatorField g = JVal.str "" → (mapGame2 g).creator = JVal.str "Unknown") ∧
    (creatorField g = JVal.str "" → (mapGame3 g).creator = JVal.str "Unknown") ∧
    (g.playing = JVal.num 0 →
      ((mapGame1 g).playing = JVal.null ↔
        JVal.truthy g.currentPlayers = false)) ∧
    (creatorField g = JVal.str "" → JVal.truthy g.creatorName = false →
      (mapGame1 g).creator = JVal.str "Unknown") ∧
    (creatorField g = JVal.str "" → JVal.truthy g.creatorName = true →
      (mapGame1 g).creator = g.creatorName) := by
  refine ⟨?_, ?_, ?_, ?_, ?_, ?_, ?_⟩
  · intro h
    simp [mapGame2, jor, h, JVal.truthy]
  · intro h
    simp [mapGame3, jor, h, JVal.truthy]
  · intro h
    simp [mapGame2, jor, h, JVal.truthy]
  · intro h
    simp [mapGame3, jor, h, JVal.truthy]
  · intro h
    have h0 : jor g.playing g.currentPlayers = g.currentPlayers := by
      simp [jor, h, JVal.truthy]
    have h1 : (mapGame1 g).playing = jor g.currentPlayers JVal.null := by
      simp [mapGame1, h0]
    rw [h1]
    cases hc : JVal.truthy g.currentPlayers with
    | false => simp [jor, hc]
    | true =>
      simp only [jor, hc, if_true]
      constructor
      · intro hnull
        rw [hnull] at hc
        exact absurd hc (by decide)
      · intro hfalse
        exact absurd hfalse (by decide)
  · intro h hc
    have h0 : jor (creatorField g) g.creatorName = g.creatorName := by
      simp [jor, h, JVal.truthy]
    have h1 : (mapGame1 g).creator = jor g.creatorName (JVal.str "Unknown") := by
      simp [mapGame1, h0]
    rw [h1]
    simp [jor, hc]
  · intro h hc
    have h0 : jor (creatorField g) g.creatorName = g.creatorName := by
      simp [jor, h, JVal.truthy]
    have h1 : (mapGame1 g).creator = jor g.creatorName (JVal.str "Unknown") := by
      simp [mapGame1, h0]
    rw [h1]
    simp [jor, hc]

/-- Witness for C10 (amended): a present 0 playing count maps to null in the
sorts-based mapping, an empty-string creator name to "Unknown" in the
id-based mapping, and the list/search biconditional denies a null playing
field when currentPlayers is 7. -/
theorem falsy_fields_coerced_witness :
    (mapGame2 { emptyGame with playing := JVal.num 0 }).playing = JVal.null ∧
    (mapGame3 { emptyGame with
      creator := some { name := JVal.str "" } }).creator = JVal.str "Unknown" ∧
    (mapGame1 gZeroPlaying).playing ≠ JVal.null := by
  refine ⟨(falsy_fields_coerced { emptyGame with playing := JVal.num 0 }).1 rfl,
    (falsy_fields_coerced { emptyGame with
      creator := some { name := JVal.str "" } }).2.2.2.1 rfl, ?_⟩
  intro hnull
  have h := ((falsy_fields_coerced gZeroPlaying).2.2.2.2.1 rfl).mp hnull
  exact absurd h (by decide)
